import Mathlib

/-!
Shallow embedding of the model-selection subsystem of the ai-chat repository
(src/server/lib/model-selector.js and src/server/routes/models.js).

JavaScript strings are Lean Strings; the JS string operations the source uses
(toLowerCase, includes, split on a character, the anchored regex replaces,
Node path.basename) are implemented structurally on character lists so that
every definition evaluates by kernel reduction.

External effects are passed explicitly: the settings row backing the selected
model is a value of type Store, the models-directory listing is a list of
LocalModel values, and the inference-gateway calls downloadModel and the
speed test (llm.js chatStream plus wall-clock timing) are oracle functions
returning Except, since their outcomes depend on the network and the engine.
-/

namespace AiChat

/-- starts-with on character lists: the first list starts with the second. -/
def startsWithL : List Char → List Char → Bool
  | _, [] => true
  | [], _ :: _ => false
  | a :: as, b :: bs => a == b && startsWithL as bs

/-- substring occurrence test on character lists. -/
def occursIn (needle : List Char) : List Char → Bool
  | [] => needle.isEmpty
  | c :: rest => startsWithL (c :: rest) needle || occursIn needle rest

/-- JavaScript String.prototype.includes. -/
def jsIncludes (hay needle : String) : Bool := occursIn needle.data hay.data

/-- JavaScript String.prototype.toLowerCase, on the ASCII names the source
works with. -/
def toLowerStr (s : String) : String := String.mk (s.data.map Char.toLower)

/-- JavaScript String.prototype.split with a single-character separator. -/
def splitOnChar (sep : Char) : List Char → List (List Char)
  | [] => [[]]
  | c :: rest =>
    let r := splitOnChar sep rest
    if c == sep then [] :: r
    else
      match r with
      | [] => [[c]]
      | h :: t => (c :: h) :: t

def jsSplit (s : String) (sep : Char) : List String :=
  (splitOnChar sep s.data).map String.mk

/-- suffix test, for the end-anchored regex replaces in the source. -/
def endsWithStr (s suf : String) : Bool :=
  startsWithL s.data.reverse suf.data.reverse

def dropRightStr (s : String) (n : Nat) : String :=
  String.mk (s.data.take (s.data.length - n))

/-- the replace of the end-anchored pattern -gguf with the empty string. -/
def stripGgufTag (s : String) : String :=
  if endsWithStr s "-gguf" then dropRightStr s 5 else s

/-- the replace of the end-anchored pattern .gguf with the empty string. -/
def stripGgufExt (s : String) : String :=
  if endsWithStr s ".gguf" then dropRightStr s 5 else s

/-- Node path.basename (posix): trailing slashes are dropped, then the last
slash-separated component is taken. -/
def basename (p : String) : String :=
  let rest := p.data.reverse.dropWhile (fun c => c == '/')
  String.mk (rest.takeWhile (fun c => !(c == '/'))).reverse

/-- one entry of MODEL_TIERS (model-selector.js lines 8-13). -/
structure Tier where
  minRam : Nat
  uri : String
  name : String
deriving DecidableEq

/-- MODEL_TIERS (model-selector.js lines 8-13), ordered by quality/size. -/
def MODEL_TIERS : List Tier :=
  [⟨32, "hf:bartowski/Mistral-Small-Instruct-2409-GGUF:Q4_K_M", "Mistral Small 22B"⟩,
   ⟨10, "hf:bartowski/Ministral-8B-Instruct-2410-GGUF:Q4_K_M", "Ministral 8B"⟩,
   ⟨5, "hf:bartowski/Phi-3.5-mini-instruct-GGUF:Q4_K_M", "Phi 3.5 Mini"⟩,
   ⟨0, "hf:bartowski/mistralai_Ministral-3-3B-Instruct-2512-GGUF:Q4_K_M", "Ministral 3B"⟩]

/-- one entry of llm.js listLocalModels(): a .gguf file of the models
directory; name is the filename without the extension, path the full path. -/
structure LocalModel where
  name : String
  path : String
deriving DecidableEq

/-- the settings row with key selected_model; none when the row is absent. -/
abbrev Store := Option String

/-- setSelectedModel (model-selector.js lines 66-68): unconditional upsert. -/
def setSelectedModel (modelId : String) (_st : Store) : Store := some modelId

/-- clearSelectedModel (model-selector.js lines 70-72). -/
def clearSelectedModel (_st : Store) : Store := none

/-- pathToModelId (model-selector.js lines 33-36). -/
def pathToModelId (modelPath : String) : String :=
  stripGgufExt (basename modelPath)

/-- getSelectedModel (model-selector.js lines 39-55); returns the produced
value together with the possibly rewritten store (migration-on-read). -/
def getSelectedModel (st : Store) : Option String × Store :=
  match st with
  | none => (none, st)
  | some v =>
    if v = "" then (none, st)
    else if jsIncludes v "/" || jsIncludes v "\\" then
      let id := pathToModelId v
      (some id, setSelectedModel id st)
    else if jsIncludes v ":" then (none, st)
    else (some v, st)

/-- repo-name extraction from a tier URI: split at the colon, take index 1
(defaulting to the empty string), split that at the slash, take index 1. -/
def repoNameOfUri (uri : String) : String :=
  (jsSplit ((jsSplit uri ':').getD 1 "") '/').getD 1 ""

/-- the fuzzy search string of a tier URI: the repo name lower-cased with a
trailing -gguf stripped. -/
def searchOfUri (uri : String) : String :=
  stripGgufTag (toLowerStr (repoNameOfUri uri))

/-- the name-similarity heuristic: the search string of the URI occurs in the
lower-cased local file name. -/
def matchesUri (name uri : String) : Bool :=
  jsIncludes (toLowerStr name) (searchOfUri uri)

/-- the end-anchored quantization-tag pattern of getDisplayName: a dot, then
Q, one or more digits, then an underscore-K-underscore, then one or more
upper-case letters, running to the end of the string. -/
def isQuantTag : List Char → Bool
  | '.' :: 'Q' :: rest =>
    let ds := rest.takeWhile (fun c => c.isDigit)
    let rest2 := rest.dropWhile (fun c => c.isDigit)
    !ds.isEmpty &&
      (match rest2 with
       | '_' :: 'K' :: '_' :: caps =>
         !caps.isEmpty && caps.all (fun c => decide ('A' ≤ c) && decide (c ≤ 'Z'))
       | _ => false)
  | _ => false

/-- the replace of the end-anchored quantization-tag pattern with the empty
string: the leftmost position whose tail matches the pattern is cut off. -/
def stripQuantTag (s : String) : String :=
  match (List.range s.data.length).find? (fun i => isQuantTag (s.data.drop i)) with
  | some i => String.mk (s.data.take i)
  | none => s

/-- the replace of the start-anchored pattern hf_bartowski_ with the empty
string. -/
def stripHfBartowski (s : String) : String :=
  if startsWithL s.data "hf_bartowski_".data then String.mk (s.data.drop 13) else s

def hyphensToSpaces (s : String) : String :=
  String.mk (s.data.map (fun c => if c == '-' then ' ' else c))

/-- getDisplayName (model-selector.js lines 75-89). -/
def getDisplayName (id : String) : String :=
  match MODEL_TIERS.find? (fun t => matchesUri id t.uri) with
  | some t => t.name
  | none => hyphensToSpaces (stripQuantTag (stripHfBartowski id))

/-- the tiers the first loop of listAvailableModels keeps: those with
ramGB not below minRam, in table order. -/
def qualifyingTiers (ramGB : Nat) : List Tier :=
  MODEL_TIERS.filter (fun t => decide (ramGB ≥ t.minRam))

/-- one element of the listAvailableModels result. -/
structure AvailEntry where
  id : String
  name : String
  downloaded : Bool
  uri : Option String
deriving DecidableEq

/-- the entry the first loop of listAvailableModels pushes for one
qualifying tier (lines 109-121). -/
def tierRow (localModels : List LocalModel) (t : Tier) : AvailEntry :=
  match localModels.find? (fun m => matchesUri m.name t.uri) with
  | some m => ⟨m.name, t.name, true, some t.uri⟩
  | none => ⟨t.uri, t.name, false, some t.uri⟩

/-- the coveredIds set after the first loop of listAvailableModels. -/
def coveredIds (ramGB : Nat) (localModels : List LocalModel) : List String :=
  (qualifyingTiers ramGB).filterMap
    (fun t => (localModels.find? (fun m => matchesUri m.name t.uri)).map (fun m => m.name))

/-- the keep condition of the second loop of listAvailableModels
(lines 131-139): not already covered, and not claimed by a tier too large
for the detected RAM (the first matching tier in table order decides). -/
def keepLocalEntry (ramGB : Nat) (covered : List String) (m : LocalModel) : Bool :=
  !(decide (m.name ∈ covered)) &&
    (match MODEL_TIERS.find? (fun t => matchesUri m.name t.uri) with
     | some t => decide (ramGB ≥ t.minRam)
     | none => true)

/-- listAvailableModels (model-selector.js lines 98-144), with the detected
RAM and the local file listing passed explicitly. -/
def listAvailableModels (ramGB : Nat) (localModels : List LocalModel) : List AvailEntry :=
  (qualifyingTiers ramGB).map (tierRow localModels) ++
    (localModels.filter (keepLocalEntry ramGB (coveredIds ramGB localModels))).map
      (fun m => ⟨m.name, getDisplayName m.name, true, none⟩)

/-- findTierUri (model-selector.js lines 147-160). -/
def findTierUri (id : String) : Option String :=
  (MODEL_TIERS.find? (fun t => t.uri == id || matchesUri id t.uri)).map (fun t => t.uri)

/-- llm.js resolveModelId: exact name match over the local listing. -/
def resolveModelId (id : String) (localModels : List LocalModel) : Option String :=
  (localModels.find? (fun m => m.name == id)).map (fun m => m.path)

/-- the value produced by the speed test (model-selector.js lines 166-181);
its numbers come from wall-clock timing of the engine, so runs are oracles. -/
structure SpeedResult where
  tokensPerSecond : Rat
  elapsed : Rat
  tokens : Nat
deriving DecidableEq

/-- the value autoSelect resolves with. -/
structure FinalResult where
  model : String
  ramGB : Nat
  speed : Option SpeedResult
  fallback : Bool
deriving DecidableEq

/-- the progress events autoSelect emits. -/
inductive Ev where
  | ram (ramGB : Nat)
  | pulling (model : String)
  | testing (model : String)
  | result (r : FinalResult)
deriving DecidableEq

/-- isModelAvailable (model-selector.js lines 183-196). -/
def isModelAvailable (localModels : List LocalModel) (uri : String) : Bool :=
  localModels.any (fun m => matchesUri m.name uri)

/-- the candidate list of autoSelect (lines 204-211): the tiers that fit the
detected RAM, reversed to smallest-first; when none fits, the last tier of
the table is pushed onto the empty list. -/
def autoCandidates (ramGB : Nat) : List Tier :=
  let cs := (MODEL_TIERS.filter (fun t => decide (ramGB ≥ t.minRam))).reverse
  if cs.isEmpty then
    match MODEL_TIERS.getLast? with
    | some t => [t]
    | none => []
  else cs

/-- one iteration of the main loop of autoSelect (lines 213-249): the body of
the try block, where a caught exception is the none outcome. A candidate
reported available whose file lookup nevertheless finds nothing raises a
TypeError inside the try block, which the catch also turns into a continue. -/
def stepCandidate (localModels : List LocalModel) (download : String → Except String String)
    (speedTest : String → Except String SpeedResult) (ramGB : Nat) (isFallback : Bool)
    (t : Tier) (st : Store) : Option (FinalResult × Store) × List Ev :=
  let pick :=
    if !isModelAvailable localModels t.uri then
      ([Ev.pulling t.name], download t.uri)
    else
      ([], match localModels.find? (fun m => matchesUri m.name t.uri) with
           | some m => Except.ok m.path
           | none => Except.error "TypeError")
  match pick.2 with
  | Except.error _ => (none, pick.1)
  | Except.ok modelPath =>
    let evs2 := pick.1 ++ [Ev.testing t.name]
    match speedTest modelPath with
    | Except.error _ => (none, evs2)
    | Except.ok r =>
      if r.tokensPerSecond ≥ 5 then
        let modelId := pathToModelId modelPath
        let st2 := setSelectedModel modelId st
        let fr : FinalResult := ⟨t.name, ramGB, some r, isFallback⟩
        (some (fr, st2), evs2 ++ [Ev.result fr])
      else
        (none, evs2)

/-- the main candidate loop (lines 213-249); the Bool flag records whether
the current candidate is still the first of the candidate list, which
decides the fallback field of the result. -/
def mainLoop (localModels : List LocalModel) (download : String → Except String String)
    (speedTest : String → Except String SpeedResult) (ramGB : Nat) :
    Bool → List Tier → Store → Option (FinalResult × Store) × List Ev
  | _, [], _ => (none, [])
  | isFb, t :: rest, st =>
    match stepCandidate localModels download speedTest ramGB isFb t st with
    | (some r, evs) => (some r, evs)
    | (none, evs) =>
      let tail := mainLoop localModels download speedTest ramGB true rest st
      (tail.1, evs ++ tail.2)

/-- the locally-available fallback loop (lines 251-267); it runs over the
reversed candidate list. none means it fell through; an available candidate
whose file lookup finds nothing raises an uncaught TypeError. -/
def fallbackLoop (localModels : List LocalModel) (ramGB : Nat) :
    List Tier → Store → Option (Except String (FinalResult × Store × List Ev))
  | [], _ => none
  | t :: rest, st =>
    if isModelAvailable localModels t.uri then
      some (match localModels.find? (fun m => matchesUri m.name t.uri) with
        | some m =>
          let modelId := pathToModelId m.path
          let st2 := setSelectedModel modelId st
          let fr : FinalResult := ⟨t.name, ramGB, none, true⟩
          Except.ok (fr, st2, [Ev.result fr])
        | none => Except.error "TypeError")
    else fallbackLoop localModels ramGB rest st

/-- the last-resort download (lines 269-281). -/
def lastResortStep (download : String → Except String String) (ramGB : Nat) (t : Tier)
    (st : Store) : Except String (FinalResult × Store) × List Ev :=
  match download t.uri with
  | Except.ok modelPath =>
    let modelId := pathToModelId modelPath
    let st2 := setSelectedModel modelId st
    let fr : FinalResult := ⟨t.name, ramGB, none, true⟩
    (Except.ok (fr, st2), [Ev.pulling t.name, Ev.result fr])
  | Except.error e =>
    (Except.error ("Could not download any model. Last tried: " ++ t.name ++ ". Error: " ++ e),
     [Ev.pulling t.name])

/-- autoSelect (model-selector.js lines 198-282): the outcome, the final
store and the emitted progress events. -/
def autoSelect (localModels : List LocalModel) (download : String → Except String String)
    (speedTest : String → Except String SpeedResult) (ramGB : Nat) (st : Store) :
    Except String FinalResult × Store × List Ev :=
  let candidates := autoCandidates ramGB
  let ml := mainLoop localModels download speedTest ramGB false candidates st
  match ml.1 with
  | some (fr, st2) => (Except.ok fr, st2, Ev.ram ramGB :: ml.2)
  | none =>
    match fallbackLoop localModels ramGB candidates.reverse st with
    | some (Except.ok (fr, st2, evs2)) => (Except.ok fr, st2, Ev.ram ramGB :: (ml.2 ++ evs2))
    | some (Except.error e) => (Except.error e, st, Ev.ram ramGB :: ml.2)
    | none =>
      match candidates.getLast? with
      | some lastResort =>
        let lr := lastResortStep download ramGB lastResort st
        match lr.1 with
        | Except.ok (fr, st2) => (Except.ok fr, st2, Ev.ram ramGB :: (ml.2 ++ lr.2))
        | Except.error e => (Except.error e, st, Ev.ram ramGB :: (ml.2 ++ lr.2))
      | none => (Except.error "TypeError", st, [Ev.ram ramGB])

deriving instance DecidableEq for Except

/-- a record written to an event stream by routes/models.js. -/
inductive SSERec where
  | ev (e : Ev)
  | downloading (model : String)
  | doneStep (selectedModel : String) (selectedModelName : String)
  | errorRec (msg : String)
  | doneSentinel
deriving DecidableEq

/-- the POST auto-select handler (routes/models.js lines 22-40): every
progress event is written as a record; a rejection is written as a record
carrying an error field; the sentinel is always written last. -/
def autoSelectRoute (localModels : List LocalModel) (download : String → Except String String)
    (speedTest : String → Except String SpeedResult) (ramGB : Nat) (st : Store) :
    List SSERec × Store :=
  let r := autoSelect localModels download speedTest ramGB st
  match r.1 with
  | Except.ok _ => (r.2.2.map SSERec.ev ++ [SSERec.doneSentinel], r.2.1)
  | Except.error e => (r.2.2.map SSERec.ev ++ [SSERec.errorRec e, SSERec.doneSentinel], r.2.1)

/-- the response of the POST select handler. -/
inductive SelectResp where
  | json (selectedModel : String) (selectedModelName : String)
  | notFound (msg : String)
  | stream (recs : List SSERec)
deriving DecidableEq

/-- the POST select handler (routes/models.js lines 49-95). -/
def selectRoute (id : String) (localModels : List LocalModel)
    (download : String → Except String String) (st : Store) : SelectResp × Store :=
  match resolveModelId id localModels with
  | some _ => (SelectResp.json id (getDisplayName id), setSelectedModel id st)
  | none =>
    match findTierUri id with
    | none => (SelectResp.notFound ("Model not found: " ++ id), st)
    | some uri =>
      match download uri with
      | Except.ok modelPath =>
        let newId := pathToModelId modelPath
        (SelectResp.stream [SSERec.downloading (getDisplayName id),
           SSERec.doneStep newId (getDisplayName newId), SSERec.doneSentinel],
         setSelectedModel newId st)
      | Except.error e =>
        (SelectResp.stream [SSERec.downloading (getDisplayName id), SSERec.errorRec e,
           SSERec.doneSentinel], st)

/-! ### Shared facts about the tier table -/

theorem tiers_minRam_descending :
    List.Pairwise (fun a b : Tier => b.minRam ≤ a.minRam) MODEL_TIERS := by decide

theorem tiers_nodup : MODEL_TIERS.Nodup := by decide

theorem tiers_uri_inj :
    ∀ t1 ∈ MODEL_TIERS, ∀ t2 ∈ MODEL_TIERS, t1.uri = t2.uri → t1 = t2 := by decide

theorem tiers_uri_self_match : ∀ t ∈ MODEL_TIERS, matchesUri t.uri t.uri = true := by decide

theorem filter_tiers_ne_nil (ramGB : Nat) :
    MODEL_TIERS.filter (fun t => decide (ramGB ≥ t.minRam)) ≠ [] := by
  intro h
  have hmem : (⟨0, "hf:bartowski/mistralai_Ministral-3-3B-Instruct-2512-GGUF:Q4_K_M",
      "Ministral 3B"⟩ : Tier) ∈ MODEL_TIERS.filter (fun t => decide (ramGB ≥ t.minRam)) := by
    rw [List.mem_filter]
    exact ⟨by decide, decide_eq_true (Nat.zero_le ramGB)⟩
  rw [h] at hmem
  exact absurd hmem (List.not_mem_nil _)

theorem autoCandidates_eq (ramGB : Nat) :
    autoCandidates ramGB
      = (MODEL_TIERS.filter (fun t => decide (ramGB ≥ t.minRam))).reverse := by
  have h : ¬ (((MODEL_TIERS.filter (fun t => decide (ramGB ≥ t.minRam))).reverse).isEmpty
      = true) := by
    rw [List.isEmpty_iff, List.reverse_eq_nil_iff]
    exact filter_tiers_ne_nil ramGB
  simp only [autoCandidates]
  rw [if_neg h]

theorem autoCandidates_ne_nil (ramGB : Nat) : autoCandidates ramGB ≠ [] := by
  rw [autoCandidates_eq, ne_eq, List.reverse_eq_nil_iff]
  exact filter_tiers_ne_nil ramGB

theorem head_min_of_pairwise {l : List Tier}
    (hp : List.Pairwise (fun a b : Tier => a.minRam ≤ b.minRam) l) {h t : Tier}
    (hh : l.head? = some h) (ht : t ∈ l) : h.minRam ≤ t.minRam := by
  cases l with
  | nil => cases hh
  | cons a as =>
    have ha : a = h := Option.some.inj hh
    subst ha
    rw [List.pairwise_cons] at hp
    rcases List.mem_cons.mp ht with rfl | hmem
    · exact Nat.le_refl _
    · exact hp.1 t hmem

/-! ### Claim theorems -/

/-- C1: in autoSelect, the candidate trial sequence consists exactly of the
tiers whose minimum-RAM requirement does not exceed the detected RAM, it is
ordered ascending by minimum-RAM requirement, and its first element has the
smallest minimum-RAM requirement of all candidates. -/
theorem autoSelect_candidate_order (ramGB : Nat) :
    (∀ t : Tier, t ∈ autoCandidates ramGB ↔ (t ∈ MODEL_TIERS ∧ t.minRam ≤ ramGB)) ∧
    List.Pairwise (fun a b : Tier => a.minRam ≤ b.minRam) (autoCandidates ramGB) ∧
    (∀ h t : Tier, (autoCandidates ramGB).head? = some h → t ∈ autoCandidates ramGB →
      h.minRam ≤ t.minRam) := by
  have hpair : List.Pairwise (fun a b : Tier => a.minRam ≤ b.minRam) (autoCandidates ramGB) := by
    rw [autoCandidates_eq, List.pairwise_reverse]
    exact tiers_minRam_descending.filter _
  refine ⟨?_, hpair, ?_⟩
  · intro t
    rw [autoCandidates_eq, List.mem_reverse, List.mem_filter, decide_eq_true_iff]
  · intro h t hh ht
    exact head_min_of_pairwise hpair hh ht

/-- C1 witness: the candidate list computed for 14 GB of RAM is ascending by
minimum-RAM requirement. -/
theorem autoSelect_candidate_order_witness :
    List.Pairwise (fun a b : Tier => a.minRam ≤ b.minRam) (autoCandidates 14) :=
  (autoSelect_candidate_order 14).2.1

/-- C2 (recording the code bug): at 14 GB of detected RAM with no local model
files and every download failing, autoSelect's last-resort download is the
candidate with the largest minimum-RAM requirement, Ministral 8B, and the
terminal error names it, although the smallest candidate is Ministral 3B with
minimum-RAM requirement 0 — contradicting the source's own comments, which
say the smallest candidate is downloaded last. -/
theorem autoSelect_lastResort_names_largest :
    ((autoSelect [] (fun _ => Except.error "network down") (fun _ => Except.error "boom")
        14 none).1
      = Except.error
          "Could not download any model. Last tried: Ministral 8B. Error: network down") ∧
    (autoCandidates 14).getLast?
      = some ⟨10, "hf:bartowski/Ministral-8B-Instruct-2410-GGUF:Q4_K_M", "Ministral 8B"⟩ ∧
    (autoCandidates 14).head?
      = some ⟨0, "hf:bartowski/mistralai_Ministral-3-3B-Instruct-2512-GGUF:Q4_K_M",
          "Ministral 3B"⟩ := by
  decide

/-- C4 counterexample: the empty string contains no path separator and no
colon, yet setting it and reading back yields null rather than the empty
string. -/
theorem setGet_roundTrip_empty_cex :
    jsIncludes "" "/" = false ∧ jsIncludes "" "\\" = false ∧ jsIncludes "" ":" = false ∧
    (getSelectedModel (setSelectedModel "" none)).1 ≠ some "" := by decide

/-- C4 (amended): for every nonempty identifier containing no slash, no
backslash and no colon, setSelectedModel followed by getSelectedModel
returns the identifier. -/
theorem setGet_roundTrip (id : String) (st : Store) (hne : id ≠ "")
    (h1 : jsIncludes id "/" = false) (h2 : jsIncludes id "\\" = false)
    (h3 : jsIncludes id ":" = false) :
    (getSelectedModel (setSelectedModel id st)).1 = some id := by
  simp [getSelectedModel, setSelectedModel, hne, h1, h2, h3]

/-- C4 witness: a concrete round trip. -/
theorem setGet_roundTrip_witness :
    (getSelectedModel (setSelectedModel "phi-3.5-mini-instruct" none)).1
      = some "phi-3.5-mini-instruct" :=
  setGet_roundTrip "phi-3.5-mini-instruct" none (by decide) (by decide) (by decide) (by decide)

/-- C5: migration-on-read. If the persisted value contains a path separator,
getSelectedModel returns the basename with the .gguf extension stripped and
rewrites storage with that bare id; if it contains no separator but contains
a colon, getSelectedModel returns null and leaves storage unchanged. -/
theorem getSelectedModel_migration (v : String) :
    ((jsIncludes v "/" = true ∨ jsIncludes v "\\" = true) →
      getSelectedModel (some v) = (some (pathToModelId v), some (pathToModelId v))) ∧
    (jsIncludes v "/" = false → jsIncludes v "\\" = false → jsIncludes v ":" = true →
      getSelectedModel (some v) = (none, some v)) := by
  by_cases hv : v = ""
  · subst hv
    constructor
    · intro h
      rcases h with h | h
      · exact absurd h (by decide)
      · exact absurd h (by decide)
    · intro _ _ h3
      exact absurd h3 (by decide)
  · constructor
    · intro h
      rcases h with h | h
      · simp [getSelectedModel, setSelectedModel, hv, h]
      · simp [getSelectedModel, setSelectedModel, hv, h]
    · intro h1 h2 h3
      simp [getSelectedModel, setSelectedModel, hv, h1, h2, h3]

/-- C5 witness: a path value is migrated to its bare id and rewritten; a
colon-qualified legacy value reads as null and is left in place. -/
theorem getSelectedModel_migration_witness :
    getSelectedModel (some "/data/models/phi-3.5.gguf") = (some "phi-3.5", some "phi-3.5") ∧
    getSelectedModel (some "llama2:7b") = (none, some "llama2:7b") :=
  ⟨(getSelectedModel_migration "/data/models/phi-3.5.gguf").1 (Or.inl (by decide)),
   (getSelectedModel_migration "llama2:7b").2 (by decide) (by decide) (by decide)⟩

/-- C8: manual select of an identifier that matches no local file exactly and
no tier, neither by URI equality nor by the fuzzy repo-name substring,
responds not-found and leaves the persisted selection unchanged. -/
theorem selectRoute_unknown_id_404 (id : String) (localModels : List LocalModel)
    (download : String → Except String String) (st : Store)
    (hlocal : ∀ m ∈ localModels, m.name ≠ id)
    (htier : ∀ t ∈ MODEL_TIERS, t.uri ≠ id ∧ matchesUri id t.uri = false) :
    selectRoute id localModels download st
      = (SelectResp.notFound ("Model not found: " ++ id), st) := by
  have h1 : resolveModelId id localModels = none := by
    unfold resolveModelId
    rw [List.find?_eq_none.mpr]
    · rfl
    · intro m hm
      simp only [beq_iff_eq]
      exact hlocal m hm
  have h2 : findTierUri id = none := by
    unfold findTierUri
    rw [List.find?_eq_none.mpr]
    · rfl
    · intro t ht
      simp only [Bool.or_eq_true, beq_iff_eq, not_or]
      exact ⟨fun h => (htier t ht).1 h, by simp [(htier t ht).2]⟩
  unfold selectRoute
  rw [h1, h2]

/-- C8 witness: selecting the id not-a-real-model with no local files. -/
theorem selectRoute_unknown_id_404_witness :
    selectRoute "not-a-real-model" [] (fun _ => Except.error "x") (some "prev")
      = (SelectResp.notFound "Model not found: not-a-real-model", some "prev") :=
  selectRoute_unknown_id_404 "not-a-real-model" [] (fun _ => Except.error "x") (some "prev")
    (by decide) (by decide)

/-- C3: for every detected RAM value and every set of local model files, no
entry of listAvailableModels derives from a tier whose minimum-RAM
requirement exceeds the detected RAM: an entry carrying a tier URI belongs
to a tier that fits the RAM, and a tier-less local entry is not claimed,
through the name heuristic, by a tier that does not fit. -/
theorem listAvailableModels_ram_bound (ramGB : Nat) (localModels : List LocalModel)
    (e : AvailEntry) (he : e ∈ listAvailableModels ramGB localModels) :
    (∀ t ∈ MODEL_TIERS, e.uri = some t.uri → t.minRam ≤ ramGB) ∧
    (e.uri = none →
      ∀ t : Tier, MODEL_TIERS.find? (fun t2 => matchesUri e.id t2.uri) = some t →
        t.minRam ≤ ramGB) := by
  unfold listAvailableModels at he
  rw [List.mem_append] at he
  rcases he with he | he
  · rw [List.mem_map] at he
    obtain ⟨t, ht, rfl⟩ := he
    have htq := ht
    rw [qualifyingTiers, List.mem_filter, decide_eq_true_iff] at htq
    have huri : (tierRow localModels t).uri = some t.uri := by
      unfold tierRow
      cases localModels.find? (fun m => matchesUri m.name t.uri) <;> rfl
    constructor
    · intro t2 ht2 h2
      rw [huri] at h2
      have heq : t = t2 := tiers_uri_inj t htq.1 t2 ht2 (Option.some.inj h2)
      rw [← heq]
      exact htq.2
    · intro hn
      rw [huri] at hn
      cases hn
  · rw [List.mem_map] at he
    obtain ⟨m, hm, rfl⟩ := he
    rw [List.mem_filter] at hm
    refine ⟨?_, ?_⟩
    · intro t2 _ h2
      cases h2
    · intro _ t hf
      have hk := hm.2
      unfold keepLocalEntry at hk
      rw [Bool.and_eq_true] at hk
      have hk2 := hk.2
      dsimp only at hf
      rw [hf] at hk2
      exact decide_eq_true_iff.mp hk2

/-- C3 witness: at 14 GB with no local files, the Ministral 8B tier entry of
the view satisfies the RAM bound. -/
theorem listAvailableModels_ram_bound_witness :
    (∀ t ∈ MODEL_TIERS,
        (AvailEntry.mk "hf:bartowski/Ministral-8B-Instruct-2410-GGUF:Q4_K_M" "Ministral 8B"
            false (some "hf:bartowski/Ministral-8B-Instruct-2410-GGUF:Q4_K_M")).uri
          = some t.uri → t.minRam ≤ 14) ∧
    ((AvailEntry.mk "hf:bartowski/Ministral-8B-Instruct-2410-GGUF:Q4_K_M" "Ministral 8B"
        false (some "hf:bartowski/Ministral-8B-Instruct-2410-GGUF:Q4_K_M")).uri = none →
      ∀ t : Tier,
        MODEL_TIERS.find? (fun t2 =>
            matchesUri (AvailEntry.mk "hf:bartowski/Ministral-8B-Instruct-2410-GGUF:Q4_K_M"
              "Ministral 8B" false
              (some "hf:bartowski/Ministral-8B-Instruct-2410-GGUF:Q4_K_M")).id t2.uri)
          = some t → t.minRam ≤ 14) :=
  listAvailableModels_ram_bound 14 []
    ⟨"hf:bartowski/Ministral-8B-Instruct-2410-GGUF:Q4_K_M", "Ministral 8B", false,
      some "hf:bartowski/Ministral-8B-Instruct-2410-GGUF:Q4_K_M"⟩ (by decide)

/-- C7: every event-stream run of the auto-select and manual-select endpoints
writes a record sequence ending with the terminating sentinel; when the
underlying operation fails, a record carrying the error is written
immediately before the sentinel rather than the stream being cut short. -/
theorem stream_ends_with_sentinel (localModels : List LocalModel)
    (download : String → Except String String) (speedTest : String → Except String SpeedResult)
    (ramGB : Nat) (st : Store) (id : String) (localModels2 : List LocalModel)
    (download2 : String → Except String String) (st2 : Store) :
    ((autoSelectRoute localModels download speedTest ramGB st).1.getLast?
        = some SSERec.doneSentinel ∧
      (∀ e, (autoSelect localModels download speedTest ramGB st).1 = Except.error e →
        ∃ pre, (autoSelectRoute localModels download speedTest ramGB st).1
            = pre ++ [SSERec.errorRec e, SSERec.doneSentinel])) ∧
    (∀ recs, (selectRoute id localModels2 download2 st2).1 = SelectResp.stream recs →
      recs.getLast? = some SSERec.doneSentinel ∧
      (∀ uri e, findTierUri id = some uri → download2 uri = Except.error e →
        recs = [SSERec.downloading (getDisplayName id), SSERec.errorRec e,
          SSERec.doneSentinel])) := by
  constructor
  · constructor
    · cases h : (autoSelect localModels download speedTest ramGB st).1 with
      | ok v => simp [autoSelectRoute, h]
      | error e => simp [autoSelectRoute, h]
    · intro e he
      refine ⟨(autoSelect localModels download speedTest ramGB st).2.2.map SSERec.ev, ?_⟩
      simp [autoSelectRoute, he]
  · intro recs hrec
    cases hres : resolveModelId id localModels2 with
    | some p => simp [selectRoute, hres] at hrec
    | none =>
      cases hturi : findTierUri id with
      | none => simp [selectRoute, hres, hturi] at hrec
      | some uri =>
        cases hdl : download2 uri with
        | ok modelPath =>
          simp [selectRoute, hres, hturi, hdl] at hrec
          subst hrec
          refine ⟨by simp, ?_⟩
          intro uri2 e h1 h2
          obtain rfl : uri = uri2 := Option.some.inj h1
          rw [hdl] at h2
          cases h2
        | error e0 =>
          simp [selectRoute, hres, hturi, hdl] at hrec
          subst hrec
          refine ⟨by simp, ?_⟩
          intro uri2 e h1 h2
          obtain rfl : uri = uri2 := Option.some.inj h1
          rw [hdl] at h2
          rw [Except.error.inj h2]

/-- C7 witness: with failing oracles at 14 GB, the auto-select stream ends
with the sentinel and carries the terminal error record just before it. -/
theorem stream_ends_with_sentinel_witness :
    (autoSelectRoute [] (fun _ => Except.error "down") (fun _ => Except.error "slow")
        14 none).1.getLast? = some SSERec.doneSentinel ∧
    ∃ pre, (autoSelectRoute [] (fun _ => Except.error "down") (fun _ => Except.error "slow")
        14 none).1
      = pre ++ [SSERec.errorRec
          "Could not download any model. Last tried: Ministral 8B. Error: down",
          SSERec.doneSentinel] :=
  ⟨(stream_ends_with_sentinel [] (fun _ => Except.error "down") (fun _ => Except.error "slow")
      14 none "x" [] (fun _ => Except.error "down") none).1.1,
   (stream_ends_with_sentinel [] (fun _ => Except.error "down") (fun _ => Except.error "slow")
      14 none "x" [] (fun _ => Except.error "down") none).1.2
     "Could not download any model. Last tried: Ministral 8B. Error: down" (by decide)⟩

theorem stepCandidate_fails (localModels : List LocalModel)
    (download : String → Except String String) (speedTest : String → Except String SpeedResult)
    (ramGB : Nat) (fb : Bool) (t : Tier) (st : Store)
    (hdl : ∀ u, ∃ e, download u = Except.error e)
    (hsp : ∀ p, ∃ e, speedTest p = Except.error e) :
    (stepCandidate localModels download speedTest ramGB fb t st).1 = none := by
  unfold stepCandidate
  by_cases hav : isModelAvailable localModels t.uri
  · simp only [hav, Bool.not_true, Bool.false_eq_true, if_false]
    cases hfind : localModels.find? (fun m => matchesUri m.name t.uri) with
    | none => simp [hfind]
    | some m =>
      obtain ⟨e, he⟩ := hsp m.path
      simp [hfind, he]
  · obtain ⟨e, he⟩ := hdl t.uri
    simp [hav, he]

theorem mainLoop_fails (localModels : List LocalModel)
    (download : String → Except String String) (speedTest : String → Except String SpeedResult)
    (ramGB : Nat)
    (hdl : ∀ u, ∃ e, download u = Except.error e)
    (hsp : ∀ p, ∃ e, speedTest p = Except.error e) :
    ∀ (l : List Tier) (fb : Bool) (st : Store),
      (mainLoop localModels download speedTest ramGB fb l st).1 = none := by
  intro l
  induction l with
  | nil => intro fb st; rfl
  | cons t rest ih =>
    intro fb st
    have hstep := stepCandidate_fails localModels download speedTest ramGB fb t st hdl hsp
    rw [mainLoop]
    cases hsc : stepCandidate localModels download speedTest ramGB fb t st with
    | mk o evs =>
      rw [hsc] at hstep
      dsimp only at hstep
      subst hstep
      simpa using ih true st

theorem fallbackLoop_skips (localModels : List LocalModel) (ramGB : Nat) :
    ∀ (l : List Tier) (st : Store), (∀ t ∈ l, isModelAvailable localModels t.uri = false) →
      fallbackLoop localModels ramGB l st = none := by
  intro l
  induction l with
  | nil => intro st _; rfl
  | cons t rest ih =>
    intro st h
    rw [fallbackLoop]
    rw [if_neg]
    · exact ih st (fun t2 ht2 => h t2 (List.mem_cons_of_mem t ht2))
    · rw [h t (List.mem_cons_self t rest)]
      exact Bool.false_ne_true

/-- C6: when every candidate download fails, every speed test fails and no
candidate is locally available, autoSelect terminates with an error and the
persisted selected-model setting is exactly what it was before the call. -/
theorem autoSelect_total_failure_atomic (localModels : List LocalModel)
    (download : String → Except String String) (speedTest : String → Except String SpeedResult)
    (ramGB : Nat) (st : Store)
    (hdl : ∀ u, ∃ e, download u = Except.error e)
    (hsp : ∀ p, ∃ e, speedTest p = Except.error e)
    (hav : ∀ t ∈ autoCandidates ramGB, isModelAvailable localModels t.uri = false) :
    (∃ msg, (autoSelect localModels download speedTest ramGB st).1 = Except.error msg) ∧
    (autoSelect localModels download speedTest ramGB st).2.1 = st := by
  have hml := mainLoop_fails localModels download speedTest ramGB hdl hsp
    (autoCandidates ramGB) false st
  have hfb := fallbackLoop_skips localModels ramGB (autoCandidates ramGB).reverse st
    (fun t ht => hav t (List.mem_reverse.mp ht))
  have hne := autoCandidates_ne_nil ramGB
  obtain ⟨lt, hlt⟩ : ∃ lt, (autoCandidates ramGB).getLast? = some lt := by
    cases hgl : (autoCandidates ramGB).getLast? with
    | none => exact absurd (List.getLast?_eq_none_iff.mp hgl) hne
    | some lt => exact ⟨lt, rfl⟩
  obtain ⟨e, he⟩ := hdl lt.uri
  simp only [autoSelect]
  cases hmlp : mainLoop localModels download speedTest ramGB false (autoCandidates ramGB) st with
  | mk o evs =>
    rw [hmlp] at hml
    dsimp only at hml
    subst hml
    rw [hfb, hlt]
    simp only [lastResortStep, he]
    exact ⟨⟨_, rfl⟩, trivial⟩

/-- C6 witness: concrete total failure at 14 GB leaves the store untouched. -/
theorem autoSelect_total_failure_atomic_witness :
    (∃ msg, (autoSelect [] (fun _ => Except.error "net") (fun _ => Except.error "engine")
        14 (some "keep")).1 = Except.error msg) ∧
    (autoSelect [] (fun _ => Except.error "net") (fun _ => Except.error "engine")
        14 (some "keep")).2.1 = some "keep" :=
  autoSelect_total_failure_atomic [] (fun _ => Except.error "net")
    (fun _ => Except.error "engine") 14 (some "keep")
    (fun u => ⟨"net", rfl⟩) (fun p => ⟨"engine", rfl⟩) (by decide)

/-- C9 counterexample: a local file whose name contains the search strings of
two different tiers is pushed by the first loop once per matching tier, so at
14 GB the returned list carries the same id twice. -/
theorem listAvailableModels_dup_cex :
    ¬ ((listAvailableModels 14
          [⟨"ministral-8b-instruct-2410-phi-3.5-mini-instruct", "/m/x.gguf"⟩]).map
        (fun e => e.id)).Nodup := by decide

/-- C9 (amended): for every detected RAM value and every set of local model
files whose names are pairwise distinct and each of which matches at most one
tier through the name heuristic, no two entries of listAvailableModels share
an id. -/
theorem listAvailableModels_dedup (ramGB : Nat) (localModels : List LocalModel)
    (hnames : (localModels.map (fun m => m.name)).Nodup)
    (hone : ∀ m ∈ localModels, ∀ t1 ∈ MODEL_TIERS, ∀ t2 ∈ MODEL_TIERS,
      matchesUri m.name t1.uri = true → matchesUri m.name t2.uri = true → t1 = t2) :
    ((listAvailableModels ramGB localModels).map (fun e => e.id)).Nodup := by
  have hinj := List.inj_on_of_nodup_map hnames
  unfold listAvailableModels
  rw [List.map_append, List.nodup_append]
  refine ⟨?_, ?_, ?_⟩
  · rw [List.map_map]
    apply List.Nodup.map_on ?_ (tiers_nodup.filter _)
    intro t1 h1 t2 h2 heq
    have ht1 : t1 ∈ MODEL_TIERS := List.mem_of_mem_filter h1
    have ht2 : t2 ∈ MODEL_TIERS := List.mem_of_mem_filter h2
    cases hf1 : localModels.find? (fun m => matchesUri m.name t1.uri) with
    | some m1 =>
      cases hf2 : localModels.find? (fun m => matchesUri m.name t2.uri) with
      | some m2 =>
        have hid : m1.name = m2.name := by
          simpa [Function.comp, tierRow, hf1, hf2] using heq
        have hm1 : m1 ∈ localModels := List.mem_of_find?_eq_some hf1
        have hm2 : m2 ∈ localModels := List.mem_of_find?_eq_some hf2
        have hmm : m1 = m2 := hinj hm1 hm2 hid
        have hmatch1 : matchesUri m1.name t1.uri = true := by
          simpa using List.find?_some hf1
        have hmatch2 : matchesUri m1.name t2.uri = true := by
          rw [hmm]
          simpa using List.find?_some hf2
        exact hone m1 hm1 t1 ht1 t2 ht2 hmatch1 hmatch2
      | none =>
        have hid : m1.name = t2.uri := by
          simpa [Function.comp, tierRow, hf1, hf2] using heq
        have hmatch2 : matchesUri m1.name t2.uri = true := by
          rw [hid]; exact tiers_uri_self_match t2 ht2
        exact absurd hmatch2
          (List.find?_eq_none.mp hf2 m1 (List.mem_of_find?_eq_some hf1))
    | none =>
      cases hf2 : localModels.find? (fun m => matchesUri m.name t2.uri) with
      | some m2 =>
        have hid : t1.uri = m2.name := by
          simpa [Function.comp, tierRow, hf1, hf2] using heq
        have hmatch1 : matchesUri m2.name t1.uri = true := by
          rw [← hid]; exact tiers_uri_self_match t1 ht1
        exact absurd hmatch1
          (List.find?_eq_none.mp hf1 m2 (List.mem_of_find?_eq_some hf2))
      | none =>
        have hid : t1.uri = t2.uri := by
          simpa [Function.comp, tierRow, hf1, hf2] using heq
        exact tiers_uri_inj t1 ht1 t2 ht2 hid
  · rw [List.map_map]
    exact List.Nodup.sublist
      (List.Sublist.map _ (List.filter_sublist localModels)) hnames
  · rw [List.disjoint_left]
    intro a ha hb
    rw [List.map_map, List.mem_map] at ha hb
    obtain ⟨t, ht, hta⟩ := ha
    obtain ⟨m, hm, hma⟩ := hb
    rw [List.mem_filter] at hm
    have hk := hm.2
    unfold keepLocalEntry at hk
    rw [Bool.and_eq_true] at hk
    have hnotcov : ¬ (m.name ∈ coveredIds ramGB localModels) := by
      simpa using hk.1
    have hmaeq : m.name = a := by simpa [Function.comp] using hma
    have ht2 : t ∈ MODEL_TIERS := List.mem_of_mem_filter ht
    cases hf : localModels.find? (fun m2 => matchesUri m2.name t.uri) with
    | some m1 =>
      have haeq : m1.name = a := by simpa [Function.comp, tierRow, hf] using hta
      apply hnotcov
      unfold coveredIds
      rw [List.mem_filterMap]
      refine ⟨t, ht, ?_⟩
      rw [hf]
      simp [haeq, hmaeq]
    | none =>
      have haeq : t.uri = a := by simpa [Function.comp, tierRow, hf] using hta
      have hmatch : matchesUri m.name t.uri = true := by
        rw [hmaeq, ← haeq]
        exact tiers_uri_self_match t ht2
      exact absurd hmatch (List.find?_eq_none.mp hf m hm.1)

/-- C9 witness: a single Phi local file at 14 GB yields pairwise-distinct
ids. -/
theorem listAvailableModels_dedup_witness :
    ((listAvailableModels 14 [⟨"Phi-3.5-mini-instruct-Q4_K_M", "/m/phi.gguf"⟩]).map
        (fun e => e.id)).Nodup :=
  listAvailableModels_dedup 14 [⟨"Phi-3.5-mini-instruct-Q4_K_M", "/m/phi.gguf"⟩]
    (by decide) (by decide)

/-- C10: an empty persisted value is read as null: after setSelectedModel of
the empty string, getSelectedModel returns none. -/
theorem getSelectedModel_empty (st : Store) :
    (getSelectedModel (setSelectedModel "" st)).1 = none ∧
    (getSelectedModel (some "")).1 = none :=
  ⟨rfl, rfl⟩

end AiChat
